import Mathlib

/-!
A verification model of pyrepl.py.

Shallow embedding of the payload builders, the command router and the
client-side file-transfer drivers of `pyrepl.py`.  Pure Python string
functions (`repr`, `str.strip`, `str.split`, `int`, `os.path.basename`,
`base64`) are modelled character-exactly for the ASCII inputs the program
deals in; the network is modelled as an oracle list of already-received
response texts (one entry per `recv_until_idle` call, after the source's
`.decode(errors="ignore")`).
-/

namespace Pyrepl

/-! ## Python string primitives -/

/-- The characters `str.strip()` / `str.split()` treat as whitespace
(the ASCII/Latin-1 part of Python's `str.isspace`). -/
def isPySpace (c : Char) : Bool :=
  c == ' ' || c == '\t' || c == '\n' || c == '\r' ||
  c.toNat == 11 || c.toNat == 12 ||
  c.toNat == 28 || c.toNat == 29 || c.toNat == 30 || c.toNat == 31 ||
  c.toNat == 133 || c.toNat == 160

/-- Python `s.strip()`. -/
def pyStrip (s : String) : String :=
  ⟨((s.data.dropWhile isPySpace).reverse.dropWhile isPySpace).reverse⟩

/-- Python `s.startswith(pre)`. -/
def pyStartsWith (s pre : String) : Bool := pre.data.isPrefixOf s.data

/-- Python `s.endswith(suf)`. -/
def pyEndsWith (s suf : String) : Bool := suf.data.isSuffixOf s.data

/-- Python `s.rstrip("\n")` (used on the raw input line). -/
def pyRstripNl (s : String) : String :=
  ⟨(s.data.reverse.dropWhile (fun c => c == '\n')).reverse⟩

/-- Python `s[n:]` (slicing counts code points). -/
def pyDropChars (s : String) (n : Nat) : String := ⟨s.data.drop n⟩

/-- Python `s.split(maxsplit=1)` with the default (whitespace) separator:
leading whitespace is skipped, the first token is cut at the next
whitespace run, and the remainder (if non-empty) is returned whole. -/
def pySplit1 (s : String) : List String :=
  let cs := s.data.dropWhile isPySpace
  if cs.isEmpty then []
  else
    let tok : String := ⟨cs.takeWhile (fun c => !isPySpace c)⟩
    let rest := (cs.dropWhile (fun c => !isPySpace c)).dropWhile isPySpace
    if rest.isEmpty then [tok] else [tok, ⟨rest⟩]

def squote : Char := Char.ofNat 39
def dquote : Char := Char.ofNat 34

/-- Lower-case hexadecimal digit. -/
def hexDigitChar (n : Nat) : Char := "0123456789abcdef".data.getD n '0'

/-- Python `repr` escape of a single character given the chosen quote.
Printable characters pass through; as a modelling simplification every
character above U+007F also passes through unchanged. -/
def pyReprChar (q c : Char) : List Char :=
  if c = '\\' then ['\\', '\\']
  else if c = q then ['\\', q]
  else if c = '\n' then ['\\', 'n']
  else if c = '\r' then ['\\', 'r']
  else if c = '\t' then ['\\', 't']
  else if c.toNat < 32 || c.toNat == 127 then
    ['\\', 'x', hexDigitChar (c.toNat / 16), hexDigitChar (c.toNat % 16)]
  else [c]

/-- Python `repr` quote choice: a single quote unless the string contains
one and no double quote. -/
def pyReprQuote (s : String) : Char :=
  if s.data.contains squote && !(s.data.contains dquote) then dquote else squote

/-- Python `repr(s)` for a string. -/
def pyRepr (s : String) : String :=
  let q := pyReprQuote s
  ⟨q :: ((s.data.map (pyReprChar q)).flatten ++ [q])⟩

/-- Digits-with-underscores tail accepted by `int()`: after a digit, the
next character is a digit, or an underscore followed by a digit. -/
def pyDigitsTail : List Char → Bool
  | [] => true
  | '_' :: [] => false
  | '_' :: c :: rest => c.isDigit && pyDigitsTail (c :: rest)
  | c :: rest => c.isDigit && pyDigitsTail rest

def digitsVal (cs : List Char) : Nat :=
  cs.foldl (fun a c => a * 10 + (c.toNat - 48)) 0

def pyIntOfDigits (cs : List Char) : Option Nat :=
  match cs with
  | [] => none
  | c :: rest =>
    if c.isDigit && pyDigitsTail rest then
      some (digitsVal (cs.filter (fun d => d != '_')))
    else none

/-- Python `int(s)`: optional surrounding whitespace, optional sign, then
decimal digits with single underscores allowed between digits.
(Non-ASCII digit forms are not modelled.) -/
def pyInt (s : String) : Option Int :=
  match (pyStrip s).data with
  | '+' :: rest => (pyIntOfDigits rest).map (fun n => (n : Int))
  | '-' :: rest => (pyIntOfDigits rest).map (fun n => -(n : Int))
  | cs => (pyIntOfDigits cs).map (fun n => (n : Int))

/-- Model of `os.path.basename` for POSIX paths: everything after the last slash. -/
def posixBasename (p : String) : String :=
  ⟨(p.data.reverse.takeWhile (fun c => c != '/')).reverse⟩

/-! ## base64 (`base64.b64encode` / `base64.b64decode`) -/

def b64Table : List Char :=
  "ABCDEFGHIJKLMNOPQRSTUVWXYZabcdefghijklmnopqrstuvwxyz0123456789+/".data

def b64c (n : Nat) : Char := b64Table.getD n 'A'

def encGroups : List Nat → List Char
  | [] => []
  | [a] => [b64c (a / 4 % 64), b64c (a % 4 * 16), '=', '=']
  | [a, b] => [b64c (a / 4 % 64), b64c (a % 4 * 16 + b / 16), b64c (b % 16 * 4), '=']
  | a :: b :: c :: rest =>
      b64c (a / 4 % 64) :: b64c (a % 4 * 16 + b / 16) ::
        b64c (b % 16 * 4 + c / 64) :: b64c (c % 64) :: encGroups rest

/-- Model of `base64.b64encode(bytes).decode()` on a list of byte values. -/
def pyB64encode (bs : List Nat) : String := ⟨encGroups bs⟩

def b64v (c : Char) : Option Nat :=
  let n := c.toNat
  if 65 ≤ n ∧ n ≤ 90 then some (n - 65)
  else if 97 ≤ n ∧ n ≤ 122 then some (n - 97 + 26)
  else if 48 ≤ n ∧ n ≤ 57 then some (n - 48 + 52)
  else if c = '+' then some 62
  else if c = '/' then some 63
  else none

def decGroups : List Char → Option (List Nat)
  | [] => some []
  | a :: b :: c :: d :: rest => do
      let va ← b64v a
      let vb ← b64v b
      if rest.isEmpty then
        if c == '=' && d == '=' then
          some [va * 4 + vb / 16]
        else if d == '=' then do
          let vc ← b64v c
          some [va * 4 + vb / 16, vb % 16 * 16 + vc / 4]
        else do
          let vc ← b64v c
          let vd ← b64v d
          some [va * 4 + vb / 16, vb % 16 * 16 + vc / 4, vc % 4 * 64 + vd]
      else do
        let vc ← b64v c
        let vd ← b64v d
        let tl ← decGroups rest
        some ([va * 4 + vb / 16, vb % 16 * 16 + vc / 4, vc % 4 * 64 + vd] ++ tl)
  | _ => none

/-- Model of `base64.b64decode` on canonical base64 text; non-canonical inputs
(stray characters, wrong length, bad padding) map to `none`, matching the
`binascii.Error` raised by the source on such data. -/
def pyB64decode (s : String) : Option (List Nat) := decGroups s.data

/-! ## Payload builders (pyrepl.py lines 30-135) -/

def PREV_VAR : String := "__pyrepl_prevdir"

/-- Constant `CHUNK = 65536` (64 KiB, shared by both transfer directions). -/
def CHUNK : Nat := 65536

/-- Helper `_write(expr)`. -/
def _write (expr : String) : String :=
  "__import__('sys').stdout.write(" ++ expr ++ ")"

/-- Builder `build_expr_pwd()`. -/
def build_expr_pwd : String :=
  _write "__import__('os').getcwd()+\"\\n\"" ++ "\n"

/-- Builder `build_expr_shell(cmd)`. -/
def build_expr_shell (cmd : String) : String :=
  "(lambda __c: (lambda __r: "
    ++ _write "((__r.stdout or '') + (__r.stderr or ''))"
    ++ ")("
    ++ "__import__('subprocess').run(__c, shell=True, capture_output=True, text=True, "
    ++ "cwd=__import__('os').getcwd())"
    ++ "))(" ++ pyRepr cmd ++ ")\n"

def osimp : String := "__import__('os')"
def pathimp : String := "__import__('os').path"
def getcwdE : String := osimp ++ ".getcwd()"
def gbls : String := "__import__('builtins').globals()"
def cdMsg : String := "'Changed directory to: '+" ++ getcwdE ++ "+'\\n'"

/-- Builder `build_expr_cd(arg)` (pyrepl.py lines 51-90).  Literal braces of the
generated Python dict display are written with their hex escapes. -/
def build_expr_cd : Option String → String
  | none =>
      "(" ++ osimp ++ ".chdir(" ++ (pathimp ++ ".expanduser('~')") ++ "),"
        ++ _write cdMsg ++ ")\n"
  | some a =>
      let arg := pyStrip a
      if arg = "-" then
        "(lambda __g: ("
          ++ _write "'No previous directory\\n'"
          ++ " if " ++ pyRepr PREV_VAR ++ " not in __g else "
          ++ "(lambda __cur,__prev: (" ++ osimp ++ ".chdir(__prev), "
          ++ "__g.update(\x7b" ++ pyRepr PREV_VAR ++ ": __cur\x7d), "
          ++ _write cdMsg
          ++ "))(" ++ getcwdE ++ ", __g[" ++ pyRepr PREV_VAR ++ "])"
          ++ "))(" ++ gbls ++ ")\n"
      else if arg = ".." then
        "(lambda __p: (" ++ osimp ++ ".chdir(__p), " ++ _write cdMsg ++ "))("
          ++ (pathimp ++ ".dirname(" ++ getcwdE ++ ")") ++ ")\n"
      else
        "(lambda __g,__cur: ("
          ++ osimp ++ ".chdir(" ++ (pathimp ++ ".expanduser(" ++ pyRepr arg ++ ")") ++ "), "
          ++ "__g.update(\x7b" ++ pyRepr PREV_VAR ++ ": __cur\x7d), "
          ++ _write cdMsg
          ++ "))(" ++ gbls ++ "," ++ getcwdE ++ ")\n"

/-- Builder `build_expr_stat_size(path)`. -/
def build_expr_stat_size (path : String) : String :=
  "(lambda __p: "
    ++ _write ("(" ++ "str(__import__('os').path.getsize(__p)) "
        ++ "if __import__('os').path.exists(__p) else 'ERR: not found'"
        ++ ")+ '\\n'")
    ++ ")(" ++ pyRepr path ++ ")\n"

/-- Builder `build_expr_read_chunk_b64(path, offset, size)`. -/
def build_expr_read_chunk_b64 (path : String) (offset size : Int) : String :=
  "(lambda __p,__o,__n: "
    ++ _write ("(" ++ "__import__('base64').b64encode("
        ++ "(lambda __f: (__f.seek(__o), __f.read(__n))[1])("
        ++ "__import__('builtins').open(__p,'rb'))"
        ++ ").decode() if __import__('os').path.exists(__p) "
        ++ "else 'ERR: not found'" ++ ")+ '\\n'")
    ++ ")(" ++ pyRepr path ++ "," ++ toString offset ++ "," ++ toString size ++ ")\n"

/-- Builder `build_expr_write_chunk_b64(path, b64data, mode)`.  Note the source
compares `mode` against the literal `'wb'` (not `"create"`): anything
other than `'wb'` opens the remote file in append mode. -/
def build_expr_write_chunk_b64 (path b64data mode : String) : String :=
  let m := if mode = "wb" then "wb" else "ab"
  "(lambda __p,__b: "
    ++ _write ("(lambda __ok: ('OK' if __ok>=0 else 'ERR: write')+'\\n')("
        ++ "__import__('builtins').open(__p,'" ++ m ++ "').write("
        ++ "__import__('base64').b64decode(__b)" ++ ")" ++ ")")
    ++ ")(" ++ pyRepr path ++ "," ++ pyRepr b64data ++ ")\n"

/-! ## Command router (`build_payload`, pyrepl.py lines 139-166) -/

/-- Router `build_payload(user_line)`: `none` means exit; `__GET__`/`__PUT__`
prefixed strings are the transfer sentinels of the source. -/
def build_payload (user_line : String) : Option String :=
  let line := pyRstripNl user_line
  if line = "exit" ∨ line = "quit" then none
  else if pyStartsWith line ":raw " then
    let raw := pyDropChars line 5
    some (raw ++ (if pyEndsWith raw "\n" then "" else "\n"))
  else if line = ":raw" then some "\n"
  else if line = "pwd" then some build_expr_pwd
  else if pyStartsWith line "cd" then
    let parts := pySplit1 line
    some (build_expr_cd (if parts.length = 1 then none else some (parts.getD 1 "")))
  else if pyStartsWith line ":get " then some ("__GET__" ++ pyDropChars line 5)
  else if pyStrip line = ":get" then some "__GET__"
  else if pyStartsWith line ":put " then some ("__PUT__" ++ pyDropChars line 5)
  else if pyStrip line = ":put" then some "__PUT__"
  else some (build_expr_shell line)

/-! ## File-transfer drivers (`do_get` / `do_put`, pyrepl.py lines 187-238)

Each network round trip is one oracle entry: the text obtained from
`recv_until_idle(...).decode(errors="ignore")` for the corresponding
request.  A request `GetReq.read remote o n` stands for
`sock.sendall(build_expr_read_chunk_b64(remote, o, n).encode())`, and
`GetReq.stat remote` for the `build_expr_stat_size` request. -/

inductive GetReq where
  | stat (path : String)
  | read (path : String) (offset size : Int)
deriving DecidableEq

structure GetLoopRes where
  reqs : List GetReq
  writes : List (List Nat)
  printed : List String
  aborted : Bool
deriving DecidableEq

/-- The `while offset < total` loop of `do_get`, with a fuel argument for
structural recursion (`do_get` always supplies enough fuel: the offset
strictly increases every iteration). -/
def getLoop (remote : String) (total : Int) :
    Nat → Int → List String → GetLoopRes
  | 0, _, _ => ⟨[], [], [], false⟩
  | fuel + 1, offset, oracle =>
    if offset < total then
      let n : Int := min (CHUNK : Int) (total - offset)
      let req := GetReq.read remote offset n
      let data_b64 := pyStrip (oracle.headD "")
      if pyStartsWith data_b64 "ERR" then
        ⟨[req], [], [data_b64], true⟩
      else if data_b64 = "" then
        ⟨[req], [], [], false⟩
      else
        match pyB64decode data_b64 with
        | none =>
          ⟨[req], [], ["ERR: base64 decode/write failed at offset " ++ toString offset], true⟩
        | some bytes =>
          let rest := getLoop remote total fuel (offset + n) oracle.tail
          ⟨req :: rest.reqs, bytes :: rest.writes, rest.printed, rest.aborted⟩
    else ⟨[], [], [], false⟩

/-- Source line `local_path = local or os.path.basename(remote) or "download.bin"`. -/
def localPathFor (localArg : Option String) (remote : String) : String :=
  let b := if posixBasename remote = "" then "download.bin" else posixBasename remote
  match localArg with
  | some l => if l = "" then b else l
  | none => b

structure GetRes where
  requests : List GetReq
  localPath : Option String
  writes : List (List Nat)
  printed : List String
deriving DecidableEq

/-- Driver `do_get(sock, timeout, remote, local)`.  `localPath = some p` records
that the local file `p` was opened with mode `"wb"` (created/truncated);
`writes` records the byte chunks appended to it. -/
def do_get (remote : String) (localArg : Option String) (oracle : List String) : GetRes :=
  let resp := pyStrip (oracle.headD "")
  if pyStartsWith resp "ERR" then
    ⟨[GetReq.stat remote], none, [], [resp]⟩
  else
    match pyInt resp with
    | none => ⟨[GetReq.stat remote], none, [], ["ERR: could not stat remote file"]⟩
    | some total =>
      let local_path := localPathFor localArg remote
      let res := getLoop remote total (total.toNat + 1) 0 oracle.tail
      if res.aborted then
        ⟨GetReq.stat remote :: res.reqs, some local_path, res.writes, res.printed⟩
      else
        ⟨GetReq.stat remote :: res.reqs, some local_path, res.writes,
          res.printed ++ ["Downloaded " ++ toString total ++ " bytes -> " ++ local_path]⟩

structure PutLoopRes where
  reqs : List (String × String × String)
  printed : List String
  aborted : Bool
deriving DecidableEq

/-- The chunk loop of `do_put`: each iteration reads up to `CHUNK` bytes,
sends `build_expr_write_chunk_b64(remote_path, b64, mode)` — recorded as
the triple `(remote_path, b64, mode)` — and requires an `"OK"`-prefixed
response. -/
def putLoop (path : String) : Nat → Bool → List Nat → List String → PutLoopRes
  | 0, _, _, _ => ⟨[], [], false⟩
  | fuel + 1, first, bs, oracle =>
    let c := bs.take CHUNK
    if c.isEmpty then ⟨[], [], false⟩
    else
      let req := (path, pyB64encode c, if first then "wb" else "ab")
      let resp := pyStrip (oracle.headD "")
      if pyStartsWith resp "OK" then
        let rest := putLoop path fuel false (bs.drop CHUNK) oracle.tail
        ⟨req :: rest.reqs, rest.printed, rest.aborted⟩
      else
        ⟨[req], [if resp = "" then "ERR: no response" else resp], true⟩

/-- Source line `remote_path = remote or os.path.basename(local)`. -/
def remotePathFor (localArg : String) (remote : Option String) : String :=
  match remote with
  | some r => if r = "" then posixBasename localArg else r
  | none => posixBasename localArg

structure PutRes where
  requests : List (String × String × String)
  printed : List String
deriving DecidableEq

/-- Driver `do_put(sock, timeout, local, remote)`.  `fileBytes = none` models
`not os.path.isfile(local)`; otherwise it is the local file's content. -/
def do_put (fileBytes : Option (List Nat)) (localArg : String) (remote : Option String)
    (oracle : List String) : PutRes :=
  match fileBytes with
  | none => ⟨[], ["ERR: local file not found"]⟩
  | some bs =>
    let remote_path := remotePathFor localArg remote
    let size := bs.length
    let res := putLoop remote_path (bs.length + 1) true bs oracle
    if res.aborted then ⟨res.reqs, res.printed⟩
    else ⟨res.reqs, res.printed ++ ["Uploaded " ++ toString size ++ " bytes -> " ++ remote_path]⟩

/-! ## Specification-side derived notions -/

/-- The `(offset, requested-size)` schedule of the GET loop: starting from
`offset`, each step requests `min(CHUNK, total - offset)` bytes and
advances the offset by exactly that requested size. -/
def chunkPlanF (total : Int) : Nat → Int → List (Int × Int)
  | 0, _ => []
  | fuel + 1, offset =>
    if offset < total then
      let n : Int := min (CHUNK : Int) (total - offset)
      (offset, n) :: chunkPlanF total fuel (offset + n)
    else []

def chunkPlan (total : Int) : List (Int × Int) := chunkPlanF total (total.toNat + 1) 0

/-- A chunk response that lets the GET loop proceed: non-error-sentinel,
non-empty and base64-decodable after stripping. -/
def goodChunk (r : String) : Prop :=
  pyStartsWith (pyStrip r) "ERR" = false ∧ pyStrip r ≠ "" ∧ pyB64decode (pyStrip r) ≠ none

instance (r : String) : Decidable (goodChunk r) := by
  unfold goodChunk; infer_instance

/-- An acknowledgment that lets the PUT loop proceed. -/
def okResp (r : String) : Prop := pyStartsWith (pyStrip r) "OK" = true

instance (r : String) : Decidable (okResp r) := by
  unfold okResp; infer_instance

/-- The successive `CHUNK`-sized slices of a byte list (the reads of the
PUT loop). -/
def chunkListF : Nat → List Nat → List (List Nat)
  | 0, _ => []
  | fuel + 1, bs =>
    let c := bs.take CHUNK
    if c.isEmpty then [] else c :: chunkListF fuel (bs.drop CHUNK)

def chunkList (bs : List Nat) : List (List Nat) := chunkListF (bs.length + 1) bs

/-- The full request sequence of a PUT of the given chunks: the first
chunk carries mode `"wb"`, all later ones `"ab"`. -/
def putReqs (path : String) : Bool → List (List Nat) → List (String × String × String)
  | _, [] => []
  | first, c :: rest =>
      (path, pyB64encode c, if first then "wb" else "ab") :: putReqs path false rest

/-- Substring occurrence (as a list of characters). -/
def occursB (needle : List Char) : List Char → Bool
  | [] => needle.isEmpty
  | c :: t => needle.isPrefixOf (c :: t) || occursB needle t

/-- Whether `pat` occurs as a contiguous substring of `s`. -/
def hasSub (s pat : String) : Bool := occursB pat.data s.data

/-- The store of the previous working directory into the remote global
namespace, as it appears inside a generated `cd` expression. -/
def prevStoreMarker : String := "__g.update(\x7b'__pyrepl_prevdir': "

/-! ## Glue lemmas -/

theorem strData_append (s t : String) : (s ++ t).data = s.data ++ t.data := rfl

theorem headD_eq_getD (l : List String) : l.headD "" = l.getD 0 "" := by
  cases l <;> rfl

theorem tail_getD (l : List String) (i : Nat) : l.tail.getD i "" = l.getD (i + 1) "" := by
  cases l <;> rfl

theorem occursB_nil (l : List Char) : occursB [] l = true := by
  induction l with
  | nil => rfl
  | cons c t ih => simp [occursB]

theorem isPrefixOf_append_of_isPrefixOf (n s t : List Char) (h : n.isPrefixOf s = true) :
    n.isPrefixOf (s ++ t) = true := by
  rw [List.isPrefixOf_iff_prefix] at h ⊢
  exact h.trans (List.prefix_append s t)

theorem occursB_of_isPrefixOf (n l : List Char) (h : n.isPrefixOf l = true) :
    occursB n l = true := by
  cases l with
  | nil =>
    cases n with
    | nil => rfl
    | cons a t => simp [List.isPrefixOf] at h
  | cons c t => simp [occursB, h]

theorem occursB_append_right (n s t : List Char) (h : occursB n t = true) :
    occursB n (s ++ t) = true := by
  induction s with
  | nil => simpa using h
  | cons c s' ih => simp [occursB, ih]

theorem occursB_append_left (n s t : List Char) (h : occursB n s = true) :
    occursB n (s ++ t) = true := by
  induction s with
  | nil =>
    have : n = [] := by simpa [occursB, List.isEmpty_iff] using h
    subst this
    exact occursB_nil _
  | cons c s' ih =>
    rw [occursB] at h
    rcases Bool.or_eq_true_iff.mp h with h' | h'
    · exact occursB_of_isPrefixOf _ _ (by simpa using isPrefixOf_append_of_isPrefixOf _ _ t h')
    · simp [occursB, ih h']

theorem hasSub_append_left (s t pat : String) (h : hasSub s pat = true) :
    hasSub (s ++ t) pat = true :=
  occursB_append_left pat.data s.data t.data h

theorem hasSub_append_right (s t pat : String) (h : hasSub t pat = true) :
    hasSub (s ++ t) pat = true :=
  occursB_append_right pat.data s.data t.data h

theorem getD_mem_or_default (l : List Char) (n : Nat) (d : Char) :
    l.getD n d ∈ l ∨ l.getD n d = d := by
  induction l generalizing n with
  | nil => right; cases n <;> rfl
  | cons a t ih =>
    cases n with
    | zero => left; simp [List.getD]
    | succ m =>
      rcases ih m with h | h
      · left; right; simpa [List.getD] using h
      · right; simpa [List.getD] using h

theorem hexDigitChar_ne_nl (n : Nat) : hexDigitChar n ≠ '\n' := by
  have h := getD_mem_or_default "0123456789abcdef".data n '0'
  unfold hexDigitChar
  rcases h with h | h
  · intro he
    rw [he] at h
    revert h
    decide
  · rw [h]
    decide

theorem nl_not_mem_pyReprChar (q c : Char) (hq : q ≠ '\n') : '\n' ∉ pyReprChar q c := by
  unfold pyReprChar
  split_ifs with h1 h2 h3 h4 h5 h6
  · decide
  · intro hm
    simp only [List.mem_cons, List.not_mem_nil, or_false] at hm
    rcases hm with hm | hm
    · exact absurd hm (by decide)
    · exact hq hm.symm
  · decide
  · decide
  · decide
  · intro hm
    simp only [List.mem_cons, List.not_mem_nil, or_false] at hm
    rcases hm with hm | hm | hm | hm
    · exact absurd hm (by decide)
    · exact absurd hm (by decide)
    · exact (hexDigitChar_ne_nl _) hm.symm
    · exact (hexDigitChar_ne_nl _) hm.symm
  · intro hm
    simp only [List.mem_cons, List.not_mem_nil, or_false] at hm
    exact h3 (hm.symm)

theorem pyReprQuote_ne_nl (s : String) : pyReprQuote s ≠ '\n' := by
  unfold pyReprQuote
  split <;> decide

theorem count_nl_flatten (q : Char) (hq : q ≠ '\n') (cs : List Char) :
    ((cs.map (pyReprChar q)).flatten).count '\n' = 0 := by
  induction cs with
  | nil => rfl
  | cons c t ih =>
    simp only [List.map_cons, List.flatten_cons, List.count_append, ih, Nat.add_zero]
    exact List.count_eq_zero.mpr (nl_not_mem_pyReprChar q c hq)

theorem count_nl_pyRepr (s : String) : (pyRepr s).data.count '\n' = 0 := by
  unfold pyRepr
  have hq := pyReprQuote_ne_nl s
  simp only [List.count_cons, List.count_append, count_nl_flatten _ hq]
  simp [hq, Ne.symm hq]

/-! ## Behaviour of the GET loop -/

/-- While every oracle response is a good chunk, the GET loop performs
exactly the read requests of the chunk schedule, prints nothing and does
not abort. -/
theorem getLoop_good (remote : String) (total : Int) :
    ∀ (fuel : Nat) (offset : Int) (oracle : List String),
      (∀ i, i < (chunkPlanF total fuel offset).length → goodChunk (oracle.getD i "")) →
      (getLoop remote total fuel offset oracle).reqs =
          (chunkPlanF total fuel offset).map (fun p => GetReq.read remote p.1 p.2) ∧
        (getLoop remote total fuel offset oracle).printed = [] ∧
        (getLoop remote total fuel offset oracle).aborted = false := by
  intro fuel
  induction fuel with
  | zero => intro offset oracle _; exact ⟨rfl, rfl, rfl⟩
  | succ fuel ih =>
    intro offset oracle h
    by_cases hlt : offset < total
    · have h0 : goodChunk (oracle.getD 0 "") := by
        apply h 0
        simp [chunkPlanF, hlt]
      obtain ⟨hERR, hne, hdec⟩ := h0
      obtain ⟨bytes, hb⟩ := Option.ne_none_iff_exists'.mp hdec
      have h' : ∀ i, i < (chunkPlanF total fuel (offset + min (CHUNK : Int) (total - offset))).length →
          goodChunk (oracle.tail.getD i "") := by
        intro i hi
        rw [tail_getD]
        apply h (i + 1)
        simp only [chunkPlanF, if_pos hlt, List.length_cons]
        omega
      obtain ⟨ih1, ih2, ih3⟩ := ih (offset + min (CHUNK : Int) (total - offset)) oracle.tail h'
      simp only [getLoop, if_pos hlt, headD_eq_getD, hERR, Bool.false_eq_true, if_false,
        hne, if_neg, hb]
      simp only [chunkPlanF, if_pos hlt, List.map_cons]
      refine ⟨?_, ?_, ?_⟩
      · simpa using ih1
      · simpa using ih2
      · simpa using ih3
    · simp [getLoop, chunkPlanF, hlt]

/-- If the first `k` oracle responses are good chunks and the `(k+1)`-st is
empty (after stripping), the GET loop stops early after the `(k+1)`-st read
request, printing nothing and not aborting. -/
theorem getLoop_empty (remote : String) (total : Int) :
    ∀ (fuel : Nat) (offset : Int) (oracle : List String) (k : Nat),
      k < (chunkPlanF total fuel offset).length →
      (∀ i, i < k → goodChunk (oracle.getD i "")) →
      pyStrip (oracle.getD k "") = "" →
      (getLoop remote total fuel offset oracle).reqs =
          ((chunkPlanF total fuel offset).take (k + 1)).map (fun p => GetReq.read remote p.1 p.2) ∧
        (getLoop remote total fuel offset oracle).printed = [] ∧
        (getLoop remote total fuel offset oracle).aborted = false := by
  intro fuel
  induction fuel with
  | zero => intro offset oracle k hk _ _; simp [chunkPlanF] at hk
  | succ fuel ih =>
    intro offset oracle k hk hgood hempty
    have hlt : offset < total := by
      by_contra hge
      simp [chunkPlanF, hge] at hk
    cases k with
    | zero =>
      have hEe : pyStartsWith "" "ERR" = false := by decide
      simp only [getLoop, if_pos hlt, headD_eq_getD, hempty, hEe, Bool.false_eq_true,
        if_false]
      simp [chunkPlanF, hlt]
    | succ k =>
      have h0 : goodChunk (oracle.getD 0 "") := hgood 0 (Nat.succ_pos _)
      obtain ⟨hERR, hne, hdec⟩ := h0
      obtain ⟨bytes, hb⟩ := Option.ne_none_iff_exists'.mp hdec
      have hk' : k < (chunkPlanF total fuel (offset + min (CHUNK : Int) (total - offset))).length := by
        simp only [chunkPlanF, if_pos hlt, List.length_cons] at hk
        omega
      have hgood' : ∀ i, i < k → goodChunk (oracle.tail.getD i "") := by
        intro i hi
        rw [tail_getD]
        exact hgood (i + 1) (by omega)
      have hempty' : pyStrip (oracle.tail.getD k "") = "" := by
        rw [tail_getD]; exact hempty
      obtain ⟨ih1, ih2, ih3⟩ :=
        ih (offset + min (CHUNK : Int) (total - offset)) oracle.tail k hk' hgood' hempty'
      simp only [getLoop, if_pos hlt, headD_eq_getD, hERR, Bool.false_eq_true, if_false,
        hne, if_neg, hb]
      simp only [chunkPlanF, if_pos hlt, List.take_succ_cons, List.map_cons]
      refine ⟨?_, ?_, ?_⟩
      · simpa using ih1
      · simpa using ih2
      · simpa using ih3

/-! ## Claims about `do_get` -/

/-- C1: for a GET whose stat response is `150000` and whose chunk
responses are all non-empty, non-error and decodable, `do_get` issues
exactly three chunk-read requests, at `(0, 65536)`, `(65536, 65536)` and
`(131072, 18928)`; and in general, for a stat response parsing to any
`total`, the requests follow `chunkPlan total`, whose every step requests
`min(CHUNK, total - offset)` bytes and advances the offset by exactly the
requested size. -/
theorem do_get_chunk_schedule :
    (∀ (remote : String) (localArg : Option String) (oracle : List String),
        pyStrip (oracle.headD "") = "150000" →
        (∀ i, i < 3 → goodChunk (oracle.tail.getD i "")) →
        (do_get remote localArg oracle).requests =
          [GetReq.stat remote, GetReq.read remote 0 65536,
            GetReq.read remote 65536 65536, GetReq.read remote 131072 18928]) ∧
    (∀ (remote : String) (localArg : Option String) (oracle : List String) (total : Int),
        pyStartsWith (pyStrip (oracle.headD "")) "ERR" = false →
        pyInt (pyStrip (oracle.headD "")) = some total →
        (∀ i, i < (chunkPlan total).length → goodChunk (oracle.tail.getD i "")) →
        (do_get remote localArg oracle).requests =
          GetReq.stat remote :: (chunkPlan total).map (fun p => GetReq.read remote p.1 p.2)) := by
  have main : ∀ (remote : String) (localArg : Option String) (oracle : List String) (total : Int),
      pyStartsWith (pyStrip (oracle.headD "")) "ERR" = false →
      pyInt (pyStrip (oracle.headD "")) = some total →
      (∀ i, i < (chunkPlan total).length → goodChunk (oracle.tail.getD i "")) →
      (do_get remote localArg oracle).requests =
        GetReq.stat remote :: (chunkPlan total).map (fun p => GetReq.read remote p.1 p.2) := by
    intro remote localArg oracle total hE hI hg
    obtain ⟨l1, l2, l3⟩ := getLoop_good remote total (total.toNat + 1) 0 oracle.tail
      (by intro i hi; exact hg i (by simpa [chunkPlan] using hi))
    simp only [do_get, hE, Bool.false_eq_true, if_false, hI, l3, l1]
    simp [chunkPlan]
  refine ⟨?_, main⟩
  intro remote localArg oracle hs hg
  have hE : pyStartsWith (pyStrip (oracle.headD "")) "ERR" = false := by rw [hs]; decide
  have hI : pyInt (pyStrip (oracle.headD "")) = some 150000 := by rw [hs]; decide
  have hlen : (chunkPlan 150000).length = 3 := by decide
  have h := main remote localArg oracle 150000 hE hI (by rw [hlen]; exact hg)
  rw [h, show chunkPlan 150000 = [(0, 65536), (65536, 65536), (131072, 18928)] from by decide]
  rfl

/-- Witness for C1 at a concrete oracle. -/
theorem do_get_chunk_schedule_witness :
    (do_get "r" none ["150000", "QQ==", "QQ==", "QQ=="]).requests =
      [GetReq.stat "r", GetReq.read "r" 0 65536,
        GetReq.read "r" 65536 65536, GetReq.read "r" 131072 18928] :=
  do_get_chunk_schedule.1 "r" none ["150000", "QQ==", "QQ==", "QQ=="] (by decide) (by decide)

/-- C3: if a chunk response comes back empty (after the first `k` good
chunks), `do_get` ends the loop early without printing any error, and
still reports the originally stated total size and the destination path,
regardless of how many bytes were written. -/
theorem do_get_empty_chunk_report (remote : String) (localArg : Option String)
    (oracle : List String) (total : Int) (k : Nat)
    (hE : pyStartsWith (pyStrip (oracle.headD "")) "ERR" = false)
    (hI : pyInt (pyStrip (oracle.headD "")) = some total)
    (hk : k < (chunkPlan total).length)
    (hgood : ∀ i, i < k → goodChunk (oracle.tail.getD i ""))
    (hempty : pyStrip (oracle.tail.getD k "") = "") :
    (do_get remote localArg oracle).printed =
        ["Downloaded " ++ toString total ++ " bytes -> " ++ localPathFor localArg remote] ∧
      (do_get remote localArg oracle).requests =
        GetReq.stat remote ::
          ((chunkPlan total).take (k + 1)).map (fun p => GetReq.read remote p.1 p.2) := by
  obtain ⟨l1, l2, l3⟩ := getLoop_empty remote total (total.toNat + 1) 0 oracle.tail k
    (by simpa [chunkPlan] using hk) hgood hempty
  constructor
  · simp only [do_get, hE, Bool.false_eq_true, if_false, hI, l3, l2]
    simp
  · simp only [do_get, hE, Bool.false_eq_true, if_false, hI, l3, l1]
    simp [chunkPlan]

/-- Witness for C3: total 3, first chunk response empty. -/
theorem do_get_empty_chunk_report_witness :
    (do_get "r" none ["3", ""]).printed = ["Downloaded 3 bytes -> r"] ∧
      (do_get "r" none ["3", ""]).requests = [GetReq.stat "r", GetReq.read "r" 0 3] := by
  have h := do_get_empty_chunk_report "r" none ["3", ""] 3 0 (by decide) (by decide)
    (by decide) (by decide) (by decide)
  exact ⟨h.1.trans (by decide), h.2.trans (by decide)⟩

/-- C5: an error-sentinel or unparseable stat response makes `do_get`
abort after the single stat request, printing one error message, with no
local file created or truncated and no further network requests. -/
theorem do_get_stat_error_abort (remote : String) (localArg : Option String)
    (oracle : List String)
    (h : pyStartsWith (pyStrip (oracle.headD "")) "ERR" = true ∨
      pyInt (pyStrip (oracle.headD "")) = none) :
    do_get remote localArg oracle =
      ⟨[GetReq.stat remote], none, [],
        [if pyStartsWith (pyStrip (oracle.headD "")) "ERR" = true then pyStrip (oracle.headD "")
          else "ERR: could not stat remote file"]⟩ := by
  by_cases hE : pyStartsWith (pyStrip (oracle.headD "")) "ERR" = true
  · simp only [do_get]
    rw [if_pos hE]
    rw [List.headD_eq_head?_getD] at hE
    simp [hE]
  · have hI : pyInt (pyStrip (oracle.headD "")) = none := by
      rcases h with h | h
      · exact absurd h hE
      · exact h
    simp only [do_get]
    rw [if_neg hE, hI]
    rw [List.headD_eq_head?_getD] at hE
    simp [hE]

/-- Witness for C5 at the sentinel stat response. -/
theorem do_get_stat_error_abort_witness :
    do_get "r" none ["ERR: not found"] =
      ⟨[GetReq.stat "r"], none, [], ["ERR: not found"]⟩ :=
  (do_get_stat_error_abort "r" none ["ERR: not found"] (Or.inl (by decide))).trans (by decide)

/-- C10: a GET with no local name whose remote path has an empty base
name falls back to the file name `"download.bin"`. -/
theorem do_get_fallback_name (remote : String) (oracle : List String) (total : Int)
    (hE : pyStartsWith (pyStrip (oracle.headD "")) "ERR" = false)
    (hI : pyInt (pyStrip (oracle.headD "")) = some total)
    (hB : posixBasename remote = "") :
    (do_get remote none oracle).localPath = some "download.bin" := by
  simp only [do_get, hE, Bool.false_eq_true, if_false, hI]
  simp [apply_ite GetRes.localPath, localPathFor, hB]

/-- Witness for C10 at a remote path ending in a slash. -/
theorem do_get_fallback_name_witness :
    (do_get "d/" none ["0"]).localPath = some "download.bin" :=
  do_get_fallback_name "d/" ["0"] 0 (by decide) (by decide) (by decide)

/-! ## Behaviour of the PUT loop -/

/-- While every acknowledgment is `"OK"`-prefixed, the PUT loop sends all
chunks (first with mode `"wb"`, then `"ab"`), prints nothing and does not
abort. -/
theorem putLoop_ok (path : String) :
    ∀ (fuel : Nat) (first : Bool) (bs : List Nat) (oracle : List String),
      (∀ i, i < (chunkListF fuel bs).length → okResp (oracle.getD i "")) →
      putLoop path fuel first bs oracle =
        ⟨putReqs path first (chunkListF fuel bs), [], false⟩ := by
  intro fuel
  induction fuel with
  | zero => intro first bs oracle _; simp [putLoop, chunkListF, putReqs]
  | succ fuel ih =>
    intro first bs oracle h
    by_cases hc : (bs.take CHUNK).isEmpty
    · simp [putLoop, chunkListF, putReqs, hc]
    · have h0 : okResp (oracle.getD 0 "") := by
        apply h 0
        simp [chunkListF, hc]
      have hOK : pyStartsWith (pyStrip (oracle.getD 0 "")) "OK" = true := h0
      have h' : ∀ i, i < (chunkListF fuel (bs.drop CHUNK)).length →
          okResp (oracle.tail.getD i "") := by
        intro i hi
        rw [tail_getD]
        apply h (i + 1)
        simp only [chunkListF, if_neg hc, List.length_cons]
        omega
      simp only [putLoop, if_neg hc, headD_eq_getD, hOK, if_true,
        ih false (bs.drop CHUNK) oracle.tail h']
      simp [chunkListF, putReqs, hc]

/-- If the first `k` acknowledgments are `"OK"`-prefixed and the
`(k+1)`-st is not, the PUT loop stops right after the `(k+1)`-st chunk
request, printing the received (stripped) response — or the local
`"ERR: no response"` message when it was empty — and aborts. -/
theorem putLoop_abort (path : String) :
    ∀ (fuel : Nat) (first : Bool) (bs : List Nat) (oracle : List String) (k : Nat),
      k < (chunkListF fuel bs).length →
      (∀ i, i < k → okResp (oracle.getD i "")) →
      ¬ okResp (oracle.getD k "") →
      putLoop path fuel first bs oracle =
        ⟨(putReqs path first (chunkListF fuel bs)).take (k + 1),
          [if pyStrip (oracle.getD k "") = "" then "ERR: no response"
            else pyStrip (oracle.getD k "")], true⟩ := by
  intro fuel
  induction fuel with
  | zero => intro first bs oracle k hk _ _; simp [chunkListF] at hk
  | succ fuel ih =>
    intro first bs oracle k hk hgood hbad
    have hc : ¬ (bs.take CHUNK).isEmpty := by
      intro hc
      simp [chunkListF, hc] at hk
    cases k with
    | zero =>
      have hOK : pyStartsWith (pyStrip (oracle.getD 0 "")) "OK" = false := by
        cases hval : pyStartsWith (pyStrip (oracle.getD 0 "")) "OK"
        · rfl
        · exact absurd hval hbad
      simp only [putLoop, if_neg hc, headD_eq_getD, hOK, Bool.false_eq_true, if_false]
      simp [chunkListF, putReqs, hc]
    | succ k =>
      have h0 : okResp (oracle.getD 0 "") := hgood 0 (Nat.succ_pos _)
      have hOK : pyStartsWith (pyStrip (oracle.getD 0 "")) "OK" = true := h0
      have hk' : k < (chunkListF fuel (bs.drop CHUNK)).length := by
        simp only [chunkListF, if_neg hc, List.length_cons] at hk
        omega
      have hgood' : ∀ i, i < k → okResp (oracle.tail.getD i "") := by
        intro i hi
        rw [tail_getD]
        exact hgood (i + 1) (by omega)
      have hbad' : ¬ okResp (oracle.tail.getD k "") := by
        rw [tail_getD]
        exact hbad
      simp only [putLoop, if_neg hc, headD_eq_getD, hOK, if_true,
        ih false (bs.drop CHUNK) oracle.tail k hk' hgood' hbad']
      simp only [chunkListF, if_neg hc, putReqs, List.take_succ_cons]
      rw [tail_getD]

/-! ## Claim about `do_put` -/

/-- C4 counterexample: on an empty acknowledgment, `do_put` does not
print what was received (the empty string) — it prints the local message
`"ERR: no response"` instead. -/
theorem do_put_empty_resp_counterexample :
    (do_put (some [65]) "a" none [""]).printed = ["ERR: no response"] ∧
      (do_put (some [65]) "a" none [""]).printed ≠ [""] := by
  decide

/-- C4 (amended): while every acknowledgment is `"OK"`-prefixed the
transfer continues through all chunks and reports the upload; at the
first acknowledgment that is not `"OK"`-prefixed, `do_put` aborts
immediately — no chunk beyond the `(k+1)`-st is sent — and prints the
received (stripped) response, except that an empty response prints
`"ERR: no response"`. -/
theorem do_put_ack_behaviour (bs : List Nat) (localArg : String) (remote : Option String)
    (oracle : List String) :
    ((∀ i, i < (chunkList bs).length → okResp (oracle.getD i "")) →
        do_put (some bs) localArg remote oracle =
          ⟨putReqs (remotePathFor localArg remote) true (chunkList bs),
            ["Uploaded " ++ toString bs.length ++ " bytes -> " ++
              remotePathFor localArg remote]⟩) ∧
    (∀ k, k < (chunkList bs).length → (∀ i, i < k → okResp (oracle.getD i "")) →
        ¬ okResp (oracle.getD k "") →
        do_put (some bs) localArg remote oracle =
          ⟨(putReqs (remotePathFor localArg remote) true (chunkList bs)).take (k + 1),
            [if pyStrip (oracle.getD k "") = "" then "ERR: no response"
              else pyStrip (oracle.getD k "")]⟩) := by
  constructor
  · intro h
    have hl := putLoop_ok (remotePathFor localArg remote) (bs.length + 1) true bs oracle
      (by intro i hi; exact h i (by simpa [chunkList] using hi))
    simp only [do_put, hl]
    simp [chunkList]
  · intro k hk hgood hbad
    have hl := putLoop_abort (remotePathFor localArg remote) (bs.length + 1) true bs oracle k
      (by simpa [chunkList] using hk) hgood hbad
    simp only [do_put, hl]
    simp [chunkList]

/-- Witness for C4 (amended), abort clause, at an empty acknowledgment. -/
theorem do_put_ack_behaviour_witness :
    do_put (some [65]) "a" none [""] = ⟨[("a", "QQ==", "wb")], ["ERR: no response"]⟩ := by
  have h := (do_put_ack_behaviour [65] "a" none [""]).2 0 (by decide) (by decide) (by decide)
  exact h.trans (by decide)

/-! ## Claims about the payload builders and the router -/

theorem isSuffixOf_singleton_nl (Y : List Char) : ['\n'].isSuffixOf (Y ++ ['\n']) = true := by
  simp [List.isSuffixOf, List.reverse_append]

/-- C6: for every shell command string, the built expression contains
exactly one (unescaped) line break, and it is the final character. -/
theorem build_expr_shell_single_newline (cmd : String) :
    (build_expr_shell cmd).data.count '\n' = 1 ∧
      pyEndsWith (build_expr_shell cmd) "\n" = true := by
  constructor
  · unfold build_expr_shell
    rw [strData_append, List.count_append, strData_append, List.count_append,
      count_nl_pyRepr]
    decide
  · unfold build_expr_shell pyEndsWith
    rw [strData_append]
    rw [show (")\n" : String).data = [')'] ++ ['\n'] from rfl, ← List.append_assoc]
    rw [show ("\n" : String).data = ['\n'] from rfl]
    exact isSuffixOf_singleton_nl _

/-- C2 counterexample: `cd ..` is a non-toggle `cd` whose generated
expression does not store the previous working directory into
`__pyrepl_prevdir`. -/
theorem build_expr_cd_dotdot_no_store :
    (some ".." : Option String) ≠ some "-" ∧
      hasSub (build_expr_cd (some "..")) prevStoreMarker = false := by
  decide

/-- C2 (amended): the expression generated by `build_expr_cd` stores the
pre-change working directory into the remote `__pyrepl_prevdir` slot
exactly when an explicit target argument is given whose stripped form is
not `".."`: `cd` with no argument (home) and `cd ..` leave the slot
untouched, `cd -` rewrites it only when it already exists, and every
explicit-path `cd` sets it; so the slot stays absent until the first
`cd` with an explicit path argument other than `"-"` and `".."`. -/
theorem build_expr_cd_store_iff (arg? : Option String) :
    hasSub (build_expr_cd arg?) prevStoreMarker = true ↔
      ∃ a, arg? = some a ∧ pyStrip a ≠ ".." := by
  cases arg? with
  | none =>
    constructor
    · intro h
      exact absurd h (by decide)
    · rintro ⟨a, ha, _⟩
      exact absurd ha (by simp)
  | some a =>
    by_cases h1 : pyStrip a = "-"
    · constructor
      · intro _
        exact ⟨a, rfl, by rw [h1]; decide⟩
      · intro _
        simp only [build_expr_cd]
        rw [if_pos h1]
        decide
    · by_cases h2 : pyStrip a = ".."
      · constructor
        · intro h
          simp only [build_expr_cd] at h
          rw [if_neg h1, if_pos h2] at h
          exact absurd h (by decide)
        · rintro ⟨a', ha', hne⟩
          cases ha'
          exact absurd h2 hne
      · constructor
        · intro _
          exact ⟨a, rfl, h2⟩
        · intro _
          simp only [build_expr_cd]
          rw [if_neg h1, if_neg h2]
          unfold hasSub
          simp only [strData_append, List.append_assoc]
          apply occursB_append_right
          apply occursB_append_right
          apply occursB_append_right
          apply occursB_append_right
          apply occursB_append_right
          apply occursB_append_right
          decide

/-- C7 counterexample: called with the mode `"create"` of the spec's
contract, the built expression opens the remote file in append mode
(`'ab'`), not truncating mode (`'wb'`). -/
theorem build_expr_write_chunk_create_appends :
    hasSub (build_expr_write_chunk_b64 "f" "QQ==" "create") "open(__p,'ab')" = true ∧
      hasSub (build_expr_write_chunk_b64 "f" "QQ==" "create") "open(__p,'wb')" = false := by
  decide

/-- C7 (amended): the built expression opens the remote file truncating
(`'wb'`) exactly when `mode` is the literal `"wb"` and appending (`'ab'`)
for any other mode value — including `"create"` and `"append"` — and its
printed result is `'OK'` on a non-negative write count, else the
`'ERR: write'` sentinel. -/
theorem build_expr_write_chunk_mode (path b64data mode : String) :
    (mode = "wb" →
        hasSub (build_expr_write_chunk_b64 path b64data mode) "open(__p,'wb')" = true) ∧
      (mode ≠ "wb" →
        hasSub (build_expr_write_chunk_b64 path b64data mode) "open(__p,'ab')" = true) ∧
      hasSub (build_expr_write_chunk_b64 path b64data mode)
        "('OK' if __ok>=0 else 'ERR: write')" = true := by
  refine ⟨?_, ?_, ?_⟩
  · intro h
    subst h
    simp only [build_expr_write_chunk_b64, if_pos rfl]
    apply hasSub_append_left
    apply hasSub_append_left
    apply hasSub_append_left
    apply hasSub_append_left
    apply hasSub_append_left
    decide
  · intro h
    simp only [build_expr_write_chunk_b64]
    rw [if_neg h]
    apply hasSub_append_left
    apply hasSub_append_left
    apply hasSub_append_left
    apply hasSub_append_left
    apply hasSub_append_left
    decide
  · by_cases h : mode = "wb"
    · subst h
      simp only [build_expr_write_chunk_b64, if_pos rfl]
      apply hasSub_append_left
      apply hasSub_append_left
      apply hasSub_append_left
      apply hasSub_append_left
      apply hasSub_append_left
      decide
    · simp only [build_expr_write_chunk_b64]
      rw [if_neg h]
      apply hasSub_append_left
      apply hasSub_append_left
      apply hasSub_append_left
      apply hasSub_append_left
      apply hasSub_append_left
      decide

/-- Witness for C7 (amended) at the spec's `"create"` mode. -/
theorem build_expr_write_chunk_mode_witness :
    hasSub (build_expr_write_chunk_b64 "f" "x" "create") "open(__p,'ab')" = true :=
  (build_expr_write_chunk_mode "f" "x" "create").2.1 (by decide)

/-- C8 counterexample: for the input `":raw x"` the payload is not the
typed text `"x"` — a newline is appended. -/
theorem build_payload_raw_appends_newline :
    build_payload ":raw x" = some "x\n" ∧ build_payload ":raw x" ≠ some "x" := by
  decide

/-- C8 (amended): the payload of `:raw <expr>` is the typed text with no
character removed or altered, but with a single newline appended when the
text does not already end in one. -/
theorem build_payload_raw_payload (user_line : String)
    (h : pyStartsWith (pyRstripNl user_line) ":raw " = true) :
    build_payload user_line =
      some (pyDropChars (pyRstripNl user_line) 5 ++
        (if pyEndsWith (pyDropChars (pyRstripNl user_line) 5) "\n" then "" else "\n")) := by
  have hne : ¬(pyRstripNl user_line = "exit" ∨ pyRstripNl user_line = "quit") := by
    rintro (he | he) <;> rw [he] at h <;> exact absurd h (by decide)
  simp only [build_payload, if_neg hne, if_pos h]

/-- Witness for C8 (amended). -/
theorem build_payload_raw_payload_witness :
    build_payload ":raw ls" = some "ls\n" := by
  have h := build_payload_raw_payload ":raw ls" (by decide)
  exact h.trans (by decide)

/-- C9: any line that starts with the two characters `cd` and is not
routed earlier is classified as a `cd` command: target `none` when the
line has one whitespace-delimited token, and the remainder after the
first token otherwise — also for lines like `"cdrom"` whose first token
is not exactly `cd`. -/
theorem build_payload_cd_routes (user_line : String)
    (h : pyStartsWith (pyRstripNl user_line) "cd" = true) :
    build_payload user_line =
      some (build_expr_cd
        (if (pySplit1 (pyRstripNl user_line)).length = 1 then none
          else some ((pySplit1 (pyRstripNl user_line)).getD 1 ""))) := by
  set L := pyRstripNl user_line with hL
  have hexq : ¬(L = "exit" ∨ L = "quit") := by
    rintro (he | he) <;> rw [he] at h <;> exact absurd h (by decide)
  have hraw : pyStartsWith L ":raw " = false := by
    cases hval : pyStartsWith L ":raw "
    · rfl
    · exfalso
      unfold pyStartsWith at h hval
      rw [List.isPrefixOf_iff_prefix] at h hval
      obtain ⟨t1, e1⟩ := h
      obtain ⟨t2, e2⟩ := hval
      rw [← e1] at e2
      have e3 : (':' :: 'r' :: 'a' :: 'w' :: ' ' :: []) ++ t2 =
          ('c' :: 'd' :: []) ++ t1 := e2
      simp at e3
  have hraw2 : L ≠ ":raw" := by
    intro he; rw [he] at h; exact absurd h (by decide)
  have hpwd : L ≠ "pwd" := by
    intro he; rw [he] at h; exact absurd h (by decide)
  simp only [build_payload, if_neg hexq, hraw, Bool.false_eq_true, if_false,
    if_neg hraw2, if_neg hpwd, if_pos h]

/-- Witness for C9 at the flagged edge case `"cdrom"`. -/
theorem build_payload_cd_routes_witness :
    build_payload "cdrom" = some (build_expr_cd none) := by
  have h := build_payload_cd_routes "cdrom" (by decide)
  exact h.trans (by decide)

end Pyrepl
